import Mathlib

/-
  Verification of the incremental sheet-to-channel synchronization engine
  of the prs-helper bot (src/bot.js).

  The embedding mirrors the JavaScript source:
  * `formChannels` (an in-memory Map keyed by "guildId:spreadsheetId")
    is an association list `List (String × Config)`;
  * the `form_channels` Mongo collection is a list of documents;
  * the `last_rows` Mongo collection is an association list keyed by
    (spreadsheet_id, sheet_name, guild_id) holding `last_row` counters;
  * remote calls (sheets metadata, value reads, Discord channel sends)
    are an oracle `Env`; the metadata read is indexed by the retry
    attempt number so that per-attempt outcomes can be expressed.

  Errors carry a transient/permanent tag purely so that statements about
  error classification can be made; the code itself never inspects it.
-/

deriving instance DecidableEq for Except

namespace PrsBot

/-- Classification tag for an injected remote failure.  The tag records
what kind of failure the environment produced; the bot's code never
branches on it. -/
inductive SourceErr where
  | transient (msg : String)
  | permanent (msg : String)
  | other (msg : String)
deriving DecidableEq, Repr

/-- One sub-source snapshot: the header row and all data rows, as returned
by the two `spreadsheets.values.get` calls in `fetchResponses`. -/
structure FetchResult where
  headers : List String
  values : List (List String)
deriving DecidableEq, Repr

/-- One entry of the in-memory `formChannels` map / one document of the
`form_channels` collection. -/
structure Config where
  channelId : String
  sheet_name : String
  guild_id : String
  spreadsheet_id : String
deriving DecidableEq, Repr

/-- Key of a `last_rows` document: (spreadsheet_id, sheet_name, guild_id). -/
abbrev CursorKey := String × String × String

/-- The `last_rows` collection: an association list of cursor documents. -/
abbrev Cursors := List (CursorKey × Nat)

/-- The remote world one tick runs against.  `spreadsheetsGet` is indexed
by the attempt number of the retry loop in `processSpreadsheet` so that
scenarios such as "fails on attempts 1 and 2, succeeds on attempt 3"
are expressible; `valuesGet` is the combined header/data read performed
by `fetchResponses`; `channelsCache` tells whether a Discord channel id
resolves; `channelSend` tells whether sending one row to a channel
succeeds. -/
structure Env where
  spreadsheetsGet : Nat → String → Except SourceErr (List String)
  valuesGet : String → String → Except SourceErr FetchResult
  channelsCache : String → Bool
  channelSend : String → List String → Bool

/-- `findOne` on the `last_rows` collection: the first document with the
given key, if any. -/
def lastRowsFindOne : Cursors → CursorKey → Option Nat
  | [], _ => none
  | e :: rest, k => if e.1 = k then some e.2 else lastRowsFindOne rest k

/-- The value the bot reads for a cursor: `lastRowDoc?.last_row || 0`. -/
def cursorsGet (cs : Cursors) (k : CursorKey) : Nat :=
  (lastRowsFindOne cs k).getD 0

/-- `updateOne … { upsert: true }` on `last_rows`: overwrite the first
document with the key, or append a fresh one. -/
def lastRowsUpdateOne : Cursors → CursorKey → Nat → Cursors
  | [], k, n => [(k, n)]
  | e :: rest, k, n => if e.1 = k then (k, n) :: rest else e :: lastRowsUpdateOne rest k n

/-- `Map.set` on `formChannels`: replace in place or append. -/
def mapSet : List (String × Config) → String → Config → List (String × Config)
  | [], k, c => [(k, c)]
  | e :: rest, k, c => if e.1 = k then (k, c) :: rest else e :: mapSet rest k c

/-- `Map.get` on `formChannels`. -/
def mapLookup : List (String × Config) → String → Option Config
  | [], _ => none
  | e :: rest, k => if e.1 = k then some e.2 else mapLookup rest k

/-- `Map.delete` on `formChannels`: remove the entry with the key. -/
def mapDelete : List (String × Config) → String → List (String × Config)
  | [], _ => []
  | e :: rest, k => if e.1 = k then rest else e :: mapDelete rest k

/-- `deleteOne` on the `form_channels` collection by guild and
spreadsheet id: removes the first matching document. -/
def deleteOneDoc : List Config → String → String → List Config
  | [], _, _ => []
  | d :: rest, g, s =>
      if d.guild_id = g ∧ d.spreadsheet_id = s then rest
      else d :: deleteOneDoc rest g s

/-- `fetchResponses(spreadsheetId, sheetName)`: performs the two value
reads inside a try/catch; any failure is logged and `null` is returned,
so the function never raises to its caller. -/
def fetchResponses (env : Env) (spreadsheetId sheetName : String) : Option FetchResult :=
  match env.valuesGet spreadsheetId sheetName with
  | .ok r => some r
  | .error _ => none

/-- `sendResponses(channelId, headers, responses, sheetName)`: looks the
channel up in the client cache and returns at once when it is absent;
otherwise sends one embed per row, each send wrapped in its own
try/catch, so a failed row never stops the remaining rows.  The result
is the list of rows actually delivered, in source order.  The function
never raises. -/
def sendResponses (env : Env) (channelId : String) (headers : List String)
    (responses : List (List String)) (sheetName : String) : List (List String) :=
  if env.channelsCache channelId then
    responses.filter (fun r => env.channelSend channelId r)
  else []

/-- The body of `processSpreadsheet`'s per-sheet loop: fetch the sheet
(skipping it when the fetch returned `null`), read the stored cursor with
default 0, and when the fetched row count exceeds it, deliver the
trailing slice and upsert the cursor to the fetched row count.  Returns
the updated `last_rows` state and the rows delivered. -/
def processSheet (env : Env) (spreadsheetId channelId guildId sheetName : String)
    (cs : Cursors) : Cursors × List (List String) :=
  match fetchResponses env spreadsheetId sheetName with
  | none => (cs, [])
  | some response =>
    let lastProcessedRow := (lastRowsFindOne cs (spreadsheetId, sheetName, guildId)).getD 0
    if response.values.length > lastProcessedRow then
      let newResponses := response.values.drop lastProcessedRow
      let delivered := sendResponses env channelId response.headers newResponses sheetName
      (lastRowsUpdateOne cs (spreadsheetId, sheetName, guildId) response.values.length,
        delivered)
    else (cs, [])

/-- The `for (const sheetName of sheetNames)` loop of one attempt. -/
def processSheets (env : Env) (spreadsheetId channelId guildId : String) :
    List String → Cursors → Cursors × List (List String)
  | [], cs => (cs, [])
  | sheetName :: rest, cs =>
    let p := processSheet env spreadsheetId channelId guildId sheetName cs
    let q := processSheets env spreadsheetId channelId guildId rest p.1
    (q.1, p.2 ++ q.2)

/-- One attempt of `processSpreadsheet`: the metadata read (auth plus
`spreadsheets.get`) either raises, failing the attempt, or yields the
sheet names, after which the per-sheet loop runs to completion (nothing
inside it raises). -/
def processAttempt (env : Env) (attempt : Nat) (spreadsheetId channelId guildId : String)
    (cs : Cursors) : Except SourceErr (Cursors × List (List String)) :=
  match env.spreadsheetsGet attempt spreadsheetId with
  | .error e => .error e
  | .ok sheetNames => .ok (processSheets env spreadsheetId channelId guildId sheetNames cs)

/-- Observable outcome of one `processSpreadsheet` call: the final
result (cursor state and delivered rows, or the error finally thrown),
the number of attempts made, and the backoff sleeps (in ms) taken
between attempts. -/
structure ProcOutcome where
  result : Except SourceErr (Cursors × List (List String))
  attemptsMade : Nat
  sleepsMs : List Nat
deriving DecidableEq, Repr

/-- The retry loop `for (let attempt = 1; attempt <= retries; attempt++)`:
on a failed attempt, rethrow when it was the last one, otherwise sleep
5000 ms and try again.  The first argument is the number of attempts
remaining. -/
def processSpreadsheetGo (env : Env) (spreadsheetId channelId guildId : String) :
    Nat → Nat → Cursors → ProcOutcome
  | 0, _, cs => ⟨.ok (cs, []), 0, []⟩
  | rem + 1, attempt, cs =>
    match processAttempt env attempt spreadsheetId channelId guildId cs with
    | .ok r => ⟨.ok r, 1, []⟩
    | .error e =>
      if rem = 0 then ⟨.error e, 1, []⟩
      else
        let o := processSpreadsheetGo env spreadsheetId channelId guildId rem (attempt + 1) cs
        ⟨o.result, o.attemptsMade + 1, 5000 :: o.sleepsMs⟩

/-- `processSpreadsheet(spreadsheetId, channelId, guildId, retries)`:
guards on missing ids (thrown before the retry loop), then runs the
retry loop starting at attempt 1. -/
def processSpreadsheet (env : Env) (spreadsheetId channelId guildId : String)
    (cs : Cursors) (retries : Nat) : ProcOutcome :=
  if spreadsheetId = "" then ⟨.error (.other "Missing spreadsheetId"), 0, []⟩
  else if guildId = "" then ⟨.error (.other "Missing guildId"), 0, []⟩
  else processSpreadsheetGo env spreadsheetId channelId guildId retries 1 cs

/-- State carried across bot operations: the in-memory `formChannels`
map, the `form_channels` collection and the `last_rows` collection. -/
structure TickState where
  formChannels : List (String × Config)
  formChannelsDocs : List Config
  lastRows : Cursors
deriving DecidableEq, Repr

/-- Recorded outcome of one subscription's task inside a tick. -/
structure SubResult where
  key : String
  ok : Bool
  delivered : List (List String)
deriving DecidableEq, Repr

/-- The work one subscription's polling task performs before its catch
handler: the `Missing spreadsheet_id in config` guard, then
`processSpreadsheet` with the default 3 retries. -/
def subOutcome (env : Env) (c : Config) (cs : Cursors) : ProcOutcome :=
  if c.spreadsheet_id = "" then ⟨.error (.other "Missing spreadsheet_id in config"), 0, []⟩
  else processSpreadsheet env c.spreadsheet_id c.channelId c.guild_id cs 3

/-- Bool view of a task result. -/
def resultOk : Except SourceErr (Cursors × List (List String)) → Bool
  | .ok _ => true
  | .error _ => false

/-- Whether a subscription's task would succeed this tick.  The retry
loop can only fail at the metadata read, which never consults the cursor
state, so this depends on the environment and the config alone. -/
def standaloneOk (env : Env) (c : Config) : Bool :=
  resultOk (subOutcome env c []).result

/-- One subscription's polling task including its catch handler: on
success the cursor writes are kept; on any error the entry is deleted
from the in-memory map and its document from `form_channels`
("Auto-clean invalid entries"), while `last_rows` is not touched. -/
def runSubscription (env : Env) (st : TickState) (key : String) (c : Config) :
    TickState × SubResult :=
  match (subOutcome env c st.lastRows).result with
  | .ok r => ({ st with lastRows := r.1 }, ⟨key, true, r.2⟩)
  | .error _ =>
      ({ st with
          formChannels := mapDelete st.formChannels key,
          formChannelsDocs := deleteOneDoc st.formChannelsDocs c.guild_id c.spreadsheet_id },
        ⟨key, false, []⟩)

/-- The per-entry loop of `pollSheets` over the snapshot taken from
`formChannels`: each entry's task runs; every task settles (its errors
are consumed by its own catch handler) and contributes one outcome. -/
def pollSheetsGo (env : Env) : List (String × Config) → TickState → TickState × List SubResult
  | [], st => (st, [])
  | kv :: rest, st =>
    let p := runSubscription env st kv.1 kv.2
    let q := pollSheetsGo env rest p.1
    (q.1, p.2 :: q.2)

/-- `pollSheets()`: snapshot the entries of `formChannels`, run every
subscription's task, join with `Promise.allSettled` (the result list has
one settled outcome per snapshot entry). -/
def pollSheets (env : Env) (st : TickState) : TickState × List SubResult :=
  pollSheetsGo env st.formChannels st

/-- The `selectChannel` step of the `/addform` dialog: `formChannels.set`
runs first, then `insertOne` into `form_channels` either succeeds or
throws; the catch handler only clears the dialog state, it does not undo
the `Map.set`. -/
def addSubscription (st : TickState) (guildId spreadsheetId sheetName channelId : String)
    (insertOk : Bool) : TickState × Bool :=
  let c : Config := ⟨channelId, sheetName, guildId, spreadsheetId⟩
  let st1 := { st with formChannels := mapSet st.formChannels (guildId ++ ":" ++ spreadsheetId) c }
  if insertOk then ({ st1 with formChannelsDocs := st1.formChannelsDocs ++ [c] }, true)
  else (st1, false)

/-- The `/removeform` handler: find the entry for this guild by sheet
name; when found, delete it from the map and its document from
`form_channels`.  The `last_rows` collection is not touched. -/
def removeform (st : TickState) (guildId spreadsheetName : String) : TickState × Bool :=
  match st.formChannels.find?
      (fun kv => kv.2.sheet_name == spreadsheetName && kv.2.guild_id == guildId) with
  | some kv =>
      ({ st with
          formChannels := mapDelete st.formChannels kv.1,
          formChannelsDocs := deleteOneDoc st.formChannelsDocs guildId kv.2.spreadsheet_id },
        true)
  | none => (st, false)

/-- A cursor key belongs to the subscription with this spreadsheet and
guild: every `last_rows` write of that subscription uses such a key. -/
def Owns (spreadsheetId guildId : String) (k : CursorKey) : Prop :=
  k.1 = spreadsheetId ∧ k.2.2 = guildId

theorem lastRowsFindOne_updateOne_same (cs : Cursors) (k : CursorKey) (n : Nat) :
    lastRowsFindOne (lastRowsUpdateOne cs k n) k = some n := by
  induction cs with
  | nil => simp [lastRowsFindOne, lastRowsUpdateOne]
  | cons e rest ih =>
    by_cases h : e.1 = k
    · simp [lastRowsUpdateOne, h, lastRowsFindOne]
    · simp [lastRowsUpdateOne, h, lastRowsFindOne, ih]

theorem lastRowsFindOne_updateOne_ne (cs : Cursors) (k k' : CursorKey) (n : Nat)
    (h : k' ≠ k) :
    lastRowsFindOne (lastRowsUpdateOne cs k n) k' = lastRowsFindOne cs k' := by
  induction cs with
  | nil => simp [lastRowsFindOne, lastRowsUpdateOne, Ne.symm h]
  | cons e rest ih =>
    by_cases he : e.1 = k
    · subst he
      simp [lastRowsUpdateOne, lastRowsFindOne, Ne.symm h]
    · simp [lastRowsUpdateOne, he, lastRowsFindOne, ih]

theorem cursorsGet_updateOne_same (cs : Cursors) (k : CursorKey) (n : Nat) :
    cursorsGet (lastRowsUpdateOne cs k n) k = n := by
  simp [cursorsGet, lastRowsFindOne_updateOne_same]

theorem cursorsGet_updateOne_ne (cs : Cursors) (k k' : CursorKey) (n : Nat)
    (h : k' ≠ k) :
    cursorsGet (lastRowsUpdateOne cs k n) k' = cursorsGet cs k' := by
  simp [cursorsGet, lastRowsFindOne_updateOne_ne cs k k' n h]

theorem keys_updateOne (cs : Cursors) (k : CursorKey) (n : Nat) :
    (lastRowsUpdateOne cs k n).map Prod.fst = cs.map Prod.fst ∨
    (lastRowsUpdateOne cs k n).map Prod.fst = cs.map Prod.fst ++ [k] := by
  induction cs with
  | nil => simp [lastRowsUpdateOne]
  | cons e rest ih =>
    by_cases he : e.1 = k
    · subst he
      simp [lastRowsUpdateOne]
    · rcases ih with h1 | h1 <;> simp [lastRowsUpdateOne, he, h1]

theorem mem_keys_updateOne (cs : Cursors) (k k' : CursorKey) (n : Nat)
    (h : k' ∈ cs.map Prod.fst) :
    k' ∈ (lastRowsUpdateOne cs k n).map Prod.fst := by
  rcases keys_updateOne cs k n with h1 | h1 <;> rw [h1] <;> simp [h]

/-- A sheet is stable under a cursor state when the cursor already covers
every row the environment would return for it: processing it again can
neither deliver nor write. -/
def Stable (env : Env) (spreadsheetId guildId sheetName : String) (cs : Cursors) : Prop :=
  ∀ r, fetchResponses env spreadsheetId sheetName = some r →
    r.values.length ≤ cursorsGet cs (spreadsheetId, sheetName, guildId)

theorem processSheet_stable_eq (env : Env) (spreadsheetId channelId guildId sheetName : String)
    (cs : Cursors) (h : Stable env spreadsheetId guildId sheetName cs) :
    processSheet env spreadsheetId channelId guildId sheetName cs = (cs, []) := by
  cases hf : fetchResponses env spreadsheetId sheetName with
  | none => simp [processSheet, hf]
  | some r =>
    have hnot : ¬ ((lastRowsFindOne cs (spreadsheetId, sheetName, guildId)).getD 0 <
        r.values.length) :=
      Nat.not_lt.mpr (by simpa [cursorsGet] using h r hf)
    simp [processSheet, hf, hnot]

theorem processSheet_post_stable (env : Env) (spreadsheetId channelId guildId sheetName : String)
    (cs : Cursors) :
    Stable env spreadsheetId guildId sheetName
      (processSheet env spreadsheetId channelId guildId sheetName cs).1 := by
  intro r hf
  by_cases hlt : (lastRowsFindOne cs (spreadsheetId, sheetName, guildId)).getD 0 <
      r.values.length
  · simp only [processSheet, hf, gt_iff_lt, hlt, if_true]
    rw [cursorsGet_updateOne_same]
  · simp only [processSheet, hf, gt_iff_lt, hlt, if_false]
    simpa [cursorsGet] using Nat.le_of_not_lt hlt

theorem processSheet_mono (env : Env) (spreadsheetId channelId guildId sheetName : String)
    (cs : Cursors) (k : CursorKey) :
    cursorsGet cs k ≤
      cursorsGet (processSheet env spreadsheetId channelId guildId sheetName cs).1 k := by
  cases hf : fetchResponses env spreadsheetId sheetName with
  | none => simp [processSheet, hf]
  | some r =>
    by_cases hlt : (lastRowsFindOne cs (spreadsheetId, sheetName, guildId)).getD 0 <
        r.values.length
    · simp only [processSheet, hf, gt_iff_lt, hlt, if_true]
      by_cases hk : k = (spreadsheetId, sheetName, guildId)
      · subst hk
        rw [cursorsGet_updateOne_same]
        simpa [cursorsGet] using Nat.le_of_lt hlt
      · rw [cursorsGet_updateOne_ne _ _ _ _ hk]
    · simp [processSheet, hf, hlt]

theorem processSheet_frame (env : Env) (spreadsheetId channelId guildId sheetName : String)
    (cs : Cursors) (k : CursorKey) (hk : k ≠ (spreadsheetId, sheetName, guildId)) :
    cursorsGet (processSheet env spreadsheetId channelId guildId sheetName cs).1 k =
      cursorsGet cs k := by
  cases hf : fetchResponses env spreadsheetId sheetName with
  | none => simp [processSheet, hf]
  | some r =>
    by_cases hlt : (lastRowsFindOne cs (spreadsheetId, sheetName, guildId)).getD 0 <
        r.values.length
    · simp only [processSheet, hf, gt_iff_lt, hlt, if_true]
      exact cursorsGet_updateOne_ne _ _ _ _ hk
    · simp [processSheet, hf, hlt]

theorem processSheet_mem_keys (env : Env) (spreadsheetId channelId guildId sheetName : String)
    (cs : Cursors) (k : CursorKey) (h : k ∈ cs.map Prod.fst) :
    k ∈ (processSheet env spreadsheetId channelId guildId sheetName cs).1.map Prod.fst := by
  cases hf : fetchResponses env spreadsheetId sheetName with
  | none => simpa [processSheet, hf] using h
  | some r =>
    by_cases hlt : (lastRowsFindOne cs (spreadsheetId, sheetName, guildId)).getD 0 <
        r.values.length
    · simp only [processSheet, hf, gt_iff_lt, hlt, if_true]
      exact mem_keys_updateOne _ _ _ _ h
    · simpa [processSheet, hf, hlt] using h

theorem stable_of_mono (env : Env) (spreadsheetId guildId sheetName : String)
    (cs cs2 : Cursors) (h : Stable env spreadsheetId guildId sheetName cs)
    (hm : ∀ k, cursorsGet cs k ≤ cursorsGet cs2 k) :
    Stable env spreadsheetId guildId sheetName cs2 :=
  fun r hf => Nat.le_trans (h r hf) (hm (spreadsheetId, sheetName, guildId))

theorem processSheets_mono (env : Env) (spreadsheetId channelId guildId : String)
    (sheetNames : List String) (cs : Cursors) (k : CursorKey) :
    cursorsGet cs k ≤
      cursorsGet (processSheets env spreadsheetId channelId guildId sheetNames cs).1 k := by
  induction sheetNames generalizing cs with
  | nil => simp [processSheets]
  | cons s rest ih =>
    simp only [processSheets]
    exact Nat.le_trans (processSheet_mono env spreadsheetId channelId guildId s cs k)
      (ih (processSheet env spreadsheetId channelId guildId s cs).1)

theorem processSheets_frame (env : Env) (spreadsheetId channelId guildId : String)
    (sheetNames : List String) (cs : Cursors) (k : CursorKey)
    (hk : ¬ Owns spreadsheetId guildId k) :
    cursorsGet (processSheets env spreadsheetId channelId guildId sheetNames cs).1 k =
      cursorsGet cs k := by
  induction sheetNames generalizing cs with
  | nil => simp [processSheets]
  | cons s rest ih =>
    simp only [processSheets]
    rw [ih (processSheet env spreadsheetId channelId guildId s cs).1,
      processSheet_frame env spreadsheetId channelId guildId s cs k]
    intro he
    exact hk (by rw [he]; exact ⟨rfl, rfl⟩)

theorem processSheets_all_stable (env : Env) (spreadsheetId channelId guildId : String)
    (sheetNames : List String) (cs : Cursors) (sheetName : String)
    (hmem : sheetName ∈ sheetNames) :
    Stable env spreadsheetId guildId sheetName
      (processSheets env spreadsheetId channelId guildId sheetNames cs).1 := by
  induction sheetNames generalizing cs with
  | nil => simp at hmem
  | cons s rest ih =>
    rcases List.mem_cons.mp hmem with h1 | h1
    · subst h1
      simp only [processSheets]
      exact stable_of_mono env spreadsheetId guildId sheetName _ _
        (processSheet_post_stable env spreadsheetId channelId guildId sheetName cs)
        (fun k => processSheets_mono env spreadsheetId channelId guildId rest _ k)
    · simp only [processSheets]
      exact ih (processSheet env spreadsheetId channelId guildId s cs).1 h1

theorem processSheets_stable_eq (env : Env) (spreadsheetId channelId guildId : String)
    (sheetNames : List String) (cs : Cursors)
    (h : ∀ sheetName ∈ sheetNames, Stable env spreadsheetId guildId sheetName cs) :
    processSheets env spreadsheetId channelId guildId sheetNames cs = (cs, []) := by
  induction sheetNames with
  | nil => simp [processSheets]
  | cons s rest ih =>
    have h1 := processSheet_stable_eq env spreadsheetId channelId guildId s cs
      (h s (List.mem_cons_self s rest))
    simp only [processSheets, h1]
    simp [ih (fun x hx => h x (List.mem_cons_of_mem s hx))]

theorem processSheets_mem_keys (env : Env) (spreadsheetId channelId guildId : String)
    (sheetNames : List String) (cs : Cursors) (k : CursorKey) (h : k ∈ cs.map Prod.fst) :
    k ∈ (processSheets env spreadsheetId channelId guildId sheetNames cs).1.map Prod.fst := by
  induction sheetNames generalizing cs with
  | nil => simpa [processSheets] using h
  | cons s rest ih =>
    simp only [processSheets]
    exact ih _ (processSheet_mem_keys env spreadsheetId channelId guildId s cs k h)

theorem processSpreadsheetGo_mono (env : Env) (spreadsheetId channelId guildId : String)
    (rem attempt : Nat) (cs cs2 : Cursors) (d : List (List String)) (k : CursorKey)
    (h : (processSpreadsheetGo env spreadsheetId channelId guildId rem attempt cs).result =
      .ok (cs2, d)) :
    cursorsGet cs k ≤ cursorsGet cs2 k := by
  induction rem generalizing attempt with
  | zero =>
    simp only [processSpreadsheetGo, Except.ok.injEq, Prod.mk.injEq] at h
    rw [← h.1]
  | succ rem ih =>
    simp only [processSpreadsheetGo] at h
    cases hm : env.spreadsheetsGet attempt spreadsheetId with
    | ok sheetNames =>
      simp only [processAttempt, hm, Except.ok.injEq] at h
      have h1 : (processSheets env spreadsheetId channelId guildId sheetNames cs).1 = cs2 := by
        rw [h]
      rw [← h1]
      exact processSheets_mono env spreadsheetId channelId guildId sheetNames cs k
    | error e =>
      simp only [processAttempt, hm] at h
      by_cases hr : rem = 0
      · simp [hr] at h
      · simp only [hr, if_false] at h
        exact ih (attempt + 1) h

theorem processSpreadsheetGo_frame (env : Env) (spreadsheetId channelId guildId : String)
    (rem attempt : Nat) (cs cs2 : Cursors) (d : List (List String)) (k : CursorKey)
    (hk : ¬ Owns spreadsheetId guildId k)
    (h : (processSpreadsheetGo env spreadsheetId channelId guildId rem attempt cs).result =
      .ok (cs2, d)) :
    cursorsGet cs2 k = cursorsGet cs k := by
  induction rem generalizing attempt with
  | zero =>
    simp only [processSpreadsheetGo, Except.ok.injEq, Prod.mk.injEq] at h
    rw [← h.1]
  | succ rem ih =>
    simp only [processSpreadsheetGo] at h
    cases hm : env.spreadsheetsGet attempt spreadsheetId with
    | ok sheetNames =>
      simp only [processAttempt, hm, Except.ok.injEq] at h
      have h1 : (processSheets env spreadsheetId channelId guildId sheetNames cs).1 = cs2 := by
        rw [h]
      rw [← h1]
      exact processSheets_frame env spreadsheetId channelId guildId sheetNames cs k hk
    | error e =>
      simp only [processAttempt, hm] at h
      by_cases hr : rem = 0
      · simp [hr] at h
      · simp only [hr, if_false] at h
        exact ih (attempt + 1) h

theorem processSpreadsheetGo_mem_keys (env : Env) (spreadsheetId channelId guildId : String)
    (rem attempt : Nat) (cs cs2 : Cursors) (d : List (List String)) (k : CursorKey)
    (hmem : k ∈ cs.map Prod.fst)
    (h : (processSpreadsheetGo env spreadsheetId channelId guildId rem attempt cs).result =
      .ok (cs2, d)) :
    k ∈ cs2.map Prod.fst := by
  induction rem generalizing attempt with
  | zero =>
    simp only [processSpreadsheetGo, Except.ok.injEq, Prod.mk.injEq] at h
    rw [← h.1]
    exact hmem
  | succ rem ih =>
    simp only [processSpreadsheetGo] at h
    cases hm : env.spreadsheetsGet attempt spreadsheetId with
    | ok sheetNames =>
      simp only [processAttempt, hm, Except.ok.injEq] at h
      have h1 : (processSheets env spreadsheetId channelId guildId sheetNames cs).1 = cs2 := by
        rw [h]
      rw [← h1]
      exact processSheets_mem_keys env spreadsheetId channelId guildId sheetNames cs k hmem
    | error e =>
      simp only [processAttempt, hm] at h
      by_cases hr : rem = 0
      · simp [hr] at h
      · simp only [hr, if_false] at h
        exact ih (attempt + 1) h

theorem processSpreadsheetGo_ok_indep (env : Env) (spreadsheetId channelId guildId : String)
    (rem attempt : Nat) (cs cs2 : Cursors) :
    resultOk (processSpreadsheetGo env spreadsheetId channelId guildId rem attempt cs).result =
      resultOk (processSpreadsheetGo env spreadsheetId channelId guildId rem attempt cs2).result := by
  induction rem generalizing attempt with
  | zero => rfl
  | succ rem ih =>
    simp only [processSpreadsheetGo]
    cases hm : env.spreadsheetsGet attempt spreadsheetId with
    | ok sheetNames => simp [processAttempt, hm, resultOk]
    | error e =>
      by_cases hr : rem = 0
      · simp [processAttempt, hm, hr]
      · simp only [processAttempt, hm, hr, if_false]
        exact ih (attempt + 1)

theorem processSpreadsheetGo_replay (env : Env) (spreadsheetId channelId guildId : String)
    (rem attempt : Nat) (cs cs1 cs2 : Cursors) (d : List (List String))
    (h : (processSpreadsheetGo env spreadsheetId channelId guildId rem attempt cs).result =
      .ok (cs1, d))
    (hm2 : ∀ k, cursorsGet cs1 k ≤ cursorsGet cs2 k) :
    (processSpreadsheetGo env spreadsheetId channelId guildId rem attempt cs2).result =
      .ok (cs2, []) := by
  induction rem generalizing attempt with
  | zero => rfl
  | succ rem ih =>
    simp only [processSpreadsheetGo] at h ⊢
    cases hm : env.spreadsheetsGet attempt spreadsheetId with
    | ok sheetNames =>
      simp only [processAttempt, hm, Except.ok.injEq] at h ⊢
      have hstable : ∀ sheetName ∈ sheetNames,
          Stable env spreadsheetId guildId sheetName cs2 := by
        intro sheetName hs
        refine stable_of_mono env spreadsheetId guildId sheetName
          (processSheets env spreadsheetId channelId guildId sheetNames cs).1 cs2
          (processSheets_all_stable env spreadsheetId channelId guildId sheetNames cs
            sheetName hs) ?_
        intro k
        have h1 : (processSheets env spreadsheetId channelId guildId sheetNames cs).1 = cs1 := by
          rw [h]
        rw [h1]
        exact hm2 k
      rw [processSheets_stable_eq env spreadsheetId channelId guildId sheetNames cs2 hstable]
    | error e =>
      simp only [processAttempt, hm] at h ⊢
      by_cases hr : rem = 0
      · simp [hr] at h
      · simp only [hr, if_false] at h ⊢
        exact ih (attempt + 1) h

theorem subOutcome_mono (env : Env) (c : Config) (cs cs2 : Cursors)
    (d : List (List String)) (k : CursorKey)
    (h : (subOutcome env c cs).result = .ok (cs2, d)) :
    cursorsGet cs k ≤ cursorsGet cs2 k := by
  by_cases h1 : c.spreadsheet_id = ""
  · simp [subOutcome, h1] at h
  · by_cases h2 : c.guild_id = ""
    · simp [subOutcome, processSpreadsheet, h1, h2] at h
    · simp only [subOutcome, processSpreadsheet, h1, h2, if_false] at h
      exact processSpreadsheetGo_mono env c.spreadsheet_id c.channelId c.guild_id 3 1
        cs cs2 d k h

theorem subOutcome_frame (env : Env) (c : Config) (cs cs2 : Cursors)
    (d : List (List String)) (k : CursorKey)
    (hk : ¬ Owns c.spreadsheet_id c.guild_id k)
    (h : (subOutcome env c cs).result = .ok (cs2, d)) :
    cursorsGet cs2 k = cursorsGet cs k := by
  by_cases h1 : c.spreadsheet_id = ""
  · simp [subOutcome, h1] at h
  · by_cases h2 : c.guild_id = ""
    · simp [subOutcome, processSpreadsheet, h1, h2] at h
    · simp only [subOutcome, processSpreadsheet, h1, h2, if_false] at h
      exact processSpreadsheetGo_frame env c.spreadsheet_id c.channelId c.guild_id 3 1
        cs cs2 d k hk h

theorem subOutcome_mem_keys (env : Env) (c : Config) (cs cs2 : Cursors)
    (d : List (List String)) (k : CursorKey) (hmem : k ∈ cs.map Prod.fst)
    (h : (subOutcome env c cs).result = .ok (cs2, d)) :
    k ∈ cs2.map Prod.fst := by
  by_cases h1 : c.spreadsheet_id = ""
  · simp [subOutcome, h1] at h
  · by_cases h2 : c.guild_id = ""
    · simp [subOutcome, processSpreadsheet, h1, h2] at h
    · simp only [subOutcome, processSpreadsheet, h1, h2, if_false] at h
      exact processSpreadsheetGo_mem_keys env c.spreadsheet_id c.channelId c.guild_id 3 1
        cs cs2 d k hmem h

theorem subOutcome_ok_indep (env : Env) (c : Config) (cs cs2 : Cursors) :
    resultOk (subOutcome env c cs).result = resultOk (subOutcome env c cs2).result := by
  by_cases h1 : c.spreadsheet_id = ""
  · simp [subOutcome, h1]
  · by_cases h2 : c.guild_id = ""
    · simp [subOutcome, processSpreadsheet, h1, h2]
    · simp only [subOutcome, processSpreadsheet, h1, h2, if_false]
      exact processSpreadsheetGo_ok_indep env c.spreadsheet_id c.channelId c.guild_id 3 1 cs cs2

theorem subOutcome_replay (env : Env) (c : Config) (cs cs1 cs2 : Cursors)
    (d : List (List String))
    (h : (subOutcome env c cs).result = .ok (cs1, d))
    (hm2 : ∀ k, cursorsGet cs1 k ≤ cursorsGet cs2 k) :
    (subOutcome env c cs2).result = .ok (cs2, []) := by
  by_cases h1 : c.spreadsheet_id = ""
  · simp [subOutcome, h1] at h
  · by_cases h2 : c.guild_id = ""
    · simp [subOutcome, processSpreadsheet, h1, h2] at h
    · simp only [subOutcome, processSpreadsheet, h1, h2, if_false] at h ⊢
      exact processSpreadsheetGo_replay env c.spreadsheet_id c.channelId c.guild_id 3 1
        cs cs1 cs2 d h hm2

theorem mapDelete_sublist (l : List (String × Config)) (k : String) :
    (mapDelete l k).Sublist l := by
  induction l with
  | nil => simp [mapDelete]
  | cons e rest ih =>
    by_cases he : e.1 = k
    · simp only [mapDelete, he, if_true]
      exact (List.sublist_cons_self e rest)
    · simp only [mapDelete, he, if_false]
      exact List.Sublist.cons₂ e ih

theorem runSubscription_lastRows_mono (env : Env) (st : TickState) (key : String)
    (c : Config) (k : CursorKey) :
    cursorsGet st.lastRows k ≤ cursorsGet (runSubscription env st key c).1.lastRows k := by
  unfold runSubscription
  cases hres : (subOutcome env c st.lastRows).result with
  | ok r => exact subOutcome_mono env c st.lastRows r.1 r.2 k (by rw [hres])
  | error e => exact Nat.le_refl _

theorem runSubscription_lastRows_frame (env : Env) (st : TickState) (key : String)
    (c : Config) (k : CursorKey) (hk : ¬ Owns c.spreadsheet_id c.guild_id k) :
    cursorsGet (runSubscription env st key c).1.lastRows k = cursorsGet st.lastRows k := by
  unfold runSubscription
  cases hres : (subOutcome env c st.lastRows).result with
  | ok r => exact subOutcome_frame env c st.lastRows r.1 r.2 k hk (by rw [hres])
  | error e => rfl

theorem runSubscription_mem_keys (env : Env) (st : TickState) (key : String)
    (c : Config) (k : CursorKey) (hmem : k ∈ st.lastRows.map Prod.fst) :
    k ∈ (runSubscription env st key c).1.lastRows.map Prod.fst := by
  unfold runSubscription
  cases hres : (subOutcome env c st.lastRows).result with
  | ok r => exact subOutcome_mem_keys env c st.lastRows r.1 r.2 k hmem (by rw [hres])
  | error e => exact hmem

theorem runSubscription_ok (env : Env) (st : TickState) (key : String) (c : Config) :
    (runSubscription env st key c).2.ok = standaloneOk env c := by
  unfold runSubscription standaloneOk
  rw [subOutcome_ok_indep env c [] st.lastRows]
  cases hres : (subOutcome env c st.lastRows).result <;> simp [resultOk]

theorem runSubscription_formChannels_sublist (env : Env) (st : TickState) (key : String)
    (c : Config) :
    (runSubscription env st key c).1.formChannels.Sublist st.formChannels := by
  unfold runSubscription
  cases hres : (subOutcome env c st.lastRows).result with
  | ok r => exact List.Sublist.refl _
  | error e => exact mapDelete_sublist st.formChannels key

theorem pollSheetsGo_lastRows_mono (env : Env) (snapshot : List (String × Config))
    (st : TickState) (k : CursorKey) :
    cursorsGet st.lastRows k ≤ cursorsGet (pollSheetsGo env snapshot st).1.lastRows k := by
  induction snapshot generalizing st with
  | nil => simp [pollSheetsGo]
  | cons kv rest ih =>
    simp only [pollSheetsGo]
    exact Nat.le_trans (runSubscription_lastRows_mono env st kv.1 kv.2 k)
      (ih (runSubscription env st kv.1 kv.2).1)

theorem pollSheetsGo_mem_keys (env : Env) (snapshot : List (String × Config))
    (st : TickState) (k : CursorKey) (hmem : k ∈ st.lastRows.map Prod.fst) :
    k ∈ (pollSheetsGo env snapshot st).1.lastRows.map Prod.fst := by
  induction snapshot generalizing st with
  | nil => simpa [pollSheetsGo] using hmem
  | cons kv rest ih =>
    simp only [pollSheetsGo]
    exact ih (runSubscription env st kv.1 kv.2).1
      (runSubscription_mem_keys env st kv.1 kv.2 k hmem)

theorem pollSheetsGo_formChannels_sublist (env : Env) (snapshot : List (String × Config))
    (st : TickState) :
    (pollSheetsGo env snapshot st).1.formChannels.Sublist st.formChannels := by
  induction snapshot generalizing st with
  | nil => simp [pollSheetsGo]
  | cons kv rest ih =>
    simp only [pollSheetsGo]
    exact List.Sublist.trans (ih (runSubscription env st kv.1 kv.2).1)
      (runSubscription_formChannels_sublist env st kv.1 kv.2)

theorem pollSheetsGo_post_replay (env : Env) (snapshot : List (String × Config))
    (st : TickState) (kv : String × Config) (hmem : kv ∈ snapshot) :
    (subOutcome env kv.2 (pollSheetsGo env snapshot st).1.lastRows).result =
      .ok ((pollSheetsGo env snapshot st).1.lastRows, []) ∨
    resultOk (subOutcome env kv.2 (pollSheetsGo env snapshot st).1.lastRows).result =
      false := by
  induction snapshot generalizing st with
  | nil => simp at hmem
  | cons kv0 rest ih =>
    rcases List.mem_cons.mp hmem with h1 | h1
    · subst h1
      simp only [pollSheetsGo]
      cases hres : (subOutcome env kv.2 st.lastRows).result with
      | ok r =>
        left
        have hst1 : (runSubscription env st kv.1 kv.2).1.lastRows = r.1 := by
          unfold runSubscription
          rw [hres]
        refine subOutcome_replay env kv.2 st.lastRows r.1 _ r.2 (by rw [hres]) ?_
        intro k
        have hmono := pollSheetsGo_lastRows_mono env rest
          (runSubscription env st kv.1 kv.2).1 k
        rw [hst1] at hmono
        exact hmono
      | error e =>
        right
        rw [subOutcome_ok_indep env kv.2
          (pollSheetsGo env rest (runSubscription env st kv.1 kv.2).1).1.lastRows
          st.lastRows, hres]
        rfl
    · simp only [pollSheetsGo]
      exact ih (runSubscription env st kv0.1 kv0.2).1 h1

theorem pollSheetsGo_noop (env : Env) (snapshot : List (String × Config)) (st : TickState)
    (h : ∀ kv ∈ snapshot,
      (subOutcome env kv.2 st.lastRows).result = .ok (st.lastRows, []) ∨
      resultOk (subOutcome env kv.2 st.lastRows).result = false) :
    (pollSheetsGo env snapshot st).1.lastRows = st.lastRows ∧
    ∀ r ∈ (pollSheetsGo env snapshot st).2, r.delivered = [] := by
  induction snapshot generalizing st with
  | nil => simp [pollSheetsGo]
  | cons kv rest ih =>
    have hkv := h kv (List.mem_cons_self kv rest)
    have hrun : (runSubscription env st kv.1 kv.2).1.lastRows = st.lastRows ∧
        (runSubscription env st kv.1 kv.2).2.delivered = [] := by
      unfold runSubscription
      rcases hkv with h1 | h1
      · rw [h1]
        exact ⟨rfl, rfl⟩
      · cases hres : (subOutcome env kv.2 st.lastRows).result with
        | ok r =>
          rw [hres] at h1
          simp [resultOk] at h1
        | error e => exact ⟨rfl, rfl⟩
    have hrest := ih (runSubscription env st kv.1 kv.2).1 (by
      intro kv2 hm
      rw [hrun.1]
      exact h kv2 (List.mem_cons_of_mem kv hm))
    simp only [pollSheetsGo]
    refine ⟨by rw [hrest.1, hrun.1], ?_⟩
    intro r hr
    rcases List.mem_cons.mp hr with h2 | h2
    · rw [h2]
      exact hrun.2
    · exact hrest.2 r h2

/-- Two cursor states agree on every key owned by a subscription. -/
def Agrees (spreadsheetId guildId : String) (cs1 cs2 : Cursors) : Prop :=
  ∀ k : CursorKey, Owns spreadsheetId guildId k → cursorsGet cs1 k = cursorsGet cs2 k

theorem agrees_processSheet (env : Env) (spreadsheetId channelId guildId sheetName : String)
    (cs1 cs2 : Cursors) (h : Agrees spreadsheetId guildId cs1 cs2) :
    Agrees spreadsheetId guildId
      (processSheet env spreadsheetId channelId guildId sheetName cs1).1
      (processSheet env spreadsheetId channelId guildId sheetName cs2).1 := by
  have hkey : cursorsGet cs1 (spreadsheetId, sheetName, guildId) =
      cursorsGet cs2 (spreadsheetId, sheetName, guildId) :=
    h (spreadsheetId, sheetName, guildId) ⟨rfl, rfl⟩
  cases hf : fetchResponses env spreadsheetId sheetName with
  | none => simpa [processSheet, hf] using h
  | some r =>
    by_cases hlt : (lastRowsFindOne cs1 (spreadsheetId, sheetName, guildId)).getD 0 <
        r.values.length
    · have hlt2 : (lastRowsFindOne cs2 (spreadsheetId, sheetName, guildId)).getD 0 <
          r.values.length := by
        have := hkey
        simp only [cursorsGet] at this
        rw [← this]
        exact hlt
      simp only [processSheet, hf, gt_iff_lt, hlt, hlt2, if_true]
      intro k ho
      by_cases hk : k = (spreadsheetId, sheetName, guildId)
      · subst hk
        rw [cursorsGet_updateOne_same, cursorsGet_updateOne_same]
      · rw [cursorsGet_updateOne_ne _ _ _ _ hk, cursorsGet_updateOne_ne _ _ _ _ hk]
        exact h k ho
    · have hlt2 : ¬ ((lastRowsFindOne cs2 (spreadsheetId, sheetName, guildId)).getD 0 <
          r.values.length) := by
        have := hkey
        simp only [cursorsGet] at this
        rw [← this]
        exact hlt
      simpa [processSheet, hf, hlt, hlt2] using h

theorem agrees_processSheets (env : Env) (spreadsheetId channelId guildId : String)
    (sheetNames : List String) (cs1 cs2 : Cursors)
    (h : Agrees spreadsheetId guildId cs1 cs2) :
    Agrees spreadsheetId guildId
      (processSheets env spreadsheetId channelId guildId sheetNames cs1).1
      (processSheets env spreadsheetId channelId guildId sheetNames cs2).1 := by
  induction sheetNames generalizing cs1 cs2 with
  | nil => simpa [processSheets] using h
  | cons sheetName rest ih =>
    simp only [processSheets]
    exact ih _ _ (agrees_processSheet env spreadsheetId channelId guildId sheetName cs1 cs2 h)

theorem agrees_processSpreadsheetGo (env : Env) (spreadsheetId channelId guildId : String)
    (rem attempt : Nat) (cs1 cs2 : Cursors) (r1 : Cursors × List (List String))
    (h : Agrees spreadsheetId guildId cs1 cs2)
    (hok : (processSpreadsheetGo env spreadsheetId channelId guildId rem attempt cs1).result =
      .ok r1) :
    ∃ r2, (processSpreadsheetGo env spreadsheetId channelId guildId rem attempt cs2).result =
      .ok r2 ∧ Agrees spreadsheetId guildId r1.1 r2.1 := by
  induction rem generalizing attempt with
  | zero =>
    simp only [processSpreadsheetGo, Except.ok.injEq] at hok
    exact ⟨(cs2, []), rfl, by rw [← hok]; exact h⟩
  | succ rem ih =>
    simp only [processSpreadsheetGo] at hok ⊢
    cases hm : env.spreadsheetsGet attempt spreadsheetId with
    | ok sheetNames =>
      simp only [processAttempt, hm, Except.ok.injEq] at hok ⊢
      refine ⟨processSheets env spreadsheetId channelId guildId sheetNames cs2, rfl, ?_⟩
      rw [← hok]
      exact agrees_processSheets env spreadsheetId channelId guildId sheetNames cs1 cs2 h
    | error e =>
      simp only [processAttempt, hm] at hok ⊢
      by_cases hr : rem = 0
      · simp [hr] at hok
      · simp only [hr, if_false] at hok ⊢
        exact ih (attempt + 1) hok

theorem agrees_subOutcome (env : Env) (c : Config) (cs1 cs2 : Cursors)
    (r1 : Cursors × List (List String))
    (h : Agrees c.spreadsheet_id c.guild_id cs1 cs2)
    (hok : (subOutcome env c cs1).result = .ok r1) :
    ∃ r2, (subOutcome env c cs2).result = .ok r2 ∧
      Agrees c.spreadsheet_id c.guild_id r1.1 r2.1 := by
  by_cases h1 : c.spreadsheet_id = ""
  · simp [subOutcome, h1] at hok
  · by_cases h2 : c.guild_id = ""
    · simp [subOutcome, processSpreadsheet, h1, h2] at hok
    · simp only [subOutcome, processSpreadsheet, h1, h2, if_false] at hok ⊢
      exact agrees_processSpreadsheetGo env c.spreadsheet_id c.channelId c.guild_id 3 1
        cs1 cs2 r1 h hok

theorem pollSheetsGo_frame_others (env : Env) (rest : List (String × Config))
    (st : TickState) (s g : String)
    (hd : ∀ kv2 ∈ rest, kv2.2.spreadsheet_id ≠ s ∨ kv2.2.guild_id ≠ g)
    (k : CursorKey) (hk : Owns s g k) :
    cursorsGet (pollSheetsGo env rest st).1.lastRows k = cursorsGet st.lastRows k := by
  induction rest generalizing st with
  | nil => simp [pollSheetsGo]
  | cons kv2 tail ih =>
    simp only [pollSheetsGo]
    rw [ih _ (fun x hx => hd x (List.mem_cons_of_mem kv2 hx))]
    refine runSubscription_lastRows_frame env st kv2.1 kv2.2 k ?_
    intro ho
    rcases hd kv2 (List.mem_cons_self kv2 tail) with hne | hne
    · exact hne (by rw [← ho.1, ← hk.1])
    · exact hne (by rw [← ho.2, ← hk.2])

theorem pollSheetsGo_results (env : Env) (snapshot : List (String × Config))
    (st : TickState) :
    (pollSheetsGo env snapshot st).2.map (fun r => (r.key, r.ok)) =
      snapshot.map (fun kv => (kv.1, standaloneOk env kv.2)) := by
  induction snapshot generalizing st with
  | nil => simp [pollSheetsGo]
  | cons kv rest ih =>
    simp only [pollSheetsGo, List.map_cons]
    have hk : (runSubscription env st kv.1 kv.2).2.key = kv.1 := by
      unfold runSubscription
      cases (subOutcome env kv.2 st.lastRows).result <;> rfl
    rw [hk, runSubscription_ok env st kv.1 kv.2, ih ((runSubscription env st kv.1 kv.2).1)]

theorem pollSheetsGo_cursor_isolated (env : Env) (snapshot : List (String × Config))
    (st : TickState) (kv : String × Config) (cs0 : Cursors)
    (hmem : kv ∈ snapshot)
    (hpw : snapshot.Pairwise
      (fun a b => a.2.spreadsheet_id ≠ b.2.spreadsheet_id ∨ a.2.guild_id ≠ b.2.guild_id))
    (hagree : Agrees kv.2.spreadsheet_id kv.2.guild_id st.lastRows cs0)
    (res : Cursors × List (List String))
    (hok : (subOutcome env kv.2 cs0).result = .ok res) :
    Agrees kv.2.spreadsheet_id kv.2.guild_id
      (pollSheetsGo env snapshot st).1.lastRows res.1 := by
  induction snapshot generalizing st with
  | nil => simp at hmem
  | cons kv0 rest ih =>
    rcases List.mem_cons.mp hmem with h1 | h1
    · subst h1
      simp only [pollSheetsGo]
      have hsym : Agrees kv.2.spreadsheet_id kv.2.guild_id cs0 st.lastRows :=
        fun k hk => (hagree k hk).symm
      obtain ⟨r2, hr2, hag2⟩ := agrees_subOutcome env kv.2 cs0 st.lastRows res hsym hok
      have hst1 : (runSubscription env st kv.1 kv.2).1.lastRows = r2.1 := by
        unfold runSubscription
        rw [hr2]
      have hdrest : ∀ kv2 ∈ rest, kv2.2.spreadsheet_id ≠ kv.2.spreadsheet_id ∨
          kv2.2.guild_id ≠ kv.2.guild_id := by
        intro kv2 h2
        rcases (List.pairwise_cons.mp hpw).1 kv2 h2 with hne | hne
        · exact Or.inl (fun he => hne he.symm)
        · exact Or.inr (fun he => hne he.symm)
      intro k hk
      rw [pollSheetsGo_frame_others env rest _ kv.2.spreadsheet_id kv.2.guild_id hdrest k hk,
        hst1]
      exact (hag2 k hk).symm
    · simp only [pollSheetsGo]
      have hne := (List.pairwise_cons.mp hpw).1 kv h1
      have hag1 : Agrees kv.2.spreadsheet_id kv.2.guild_id
          (runSubscription env st kv0.1 kv0.2).1.lastRows cs0 := by
        intro k hk
        rw [runSubscription_lastRows_frame env st kv0.1 kv0.2 k ?_]
        · exact hagree k hk
        · intro ho
          rcases hne with hx | hx
          · exact hx (ho.1.symm.trans hk.1)
          · exact hx (ho.2.symm.trans hk.2)
      exact ih (runSubscription env st kv0.1 kv0.2).1 h1 (List.pairwise_cons.mp hpw).2 hag1

/-- Subscription used by the concrete scenarios: guild G1 tracks
spreadsheet S1, posting to channel CH1, labelled MySheet. -/
def cfg1 : Config := ⟨"CH1", "MySheet", "G1", "S1"⟩

/-- Environment in which the remote source has one sheet with one data
row but the sink channel CH1 is not in the client cache, so no row can
be delivered. -/
def env1 : Env :=
  ⟨fun _ _ => .ok ["Sheet1"], fun _ _ => .ok ⟨["H1"], [["a"]]⟩,
    fun _ => false, fun _ _ => true⟩

/-- Claim C1, counterexample: the sink channel is unavailable, so zero of
the one new row is delivered, yet the stored cursor for
(G1, S1, Sheet1) is advanced from 0 to 1 by the tick instead of being
left unchanged — the failed row will never be re-delivered. -/
theorem c1_counterexample :
    env1.channelsCache "CH1" = false ∧
    cursorsGet [] ("S1", "Sheet1", "G1") = 0 ∧
    (processSpreadsheet env1 "S1" "CH1" "G1" [] 3).result =
      .ok ([(("S1", "Sheet1", "G1"), 1)], []) := by
  refine ⟨rfl, rfl, ?_⟩
  decide

/-- Claim C1, amended: when a sheet has new rows, `processSpreadsheet`
overwrites the cursor with the fetched row count regardless of whether
delivery succeeded — delivery failures (including an unavailable sink
channel, under which nothing at all is delivered) are swallowed by
`sendResponses`, so the failed rows are not re-delivered on a later
tick. -/
theorem c1_cursor_advances_despite_failure (env : Env)
    (spreadsheetId channelId guildId sheetName : String) (cs : Cursors) (r : FetchResult)
    (hf : fetchResponses env spreadsheetId sheetName = some r)
    (hlt : cursorsGet cs (spreadsheetId, sheetName, guildId) < r.values.length) :
    cursorsGet (processSheet env spreadsheetId channelId guildId sheetName cs).1
        (spreadsheetId, sheetName, guildId) = r.values.length ∧
    (env.channelsCache channelId = false →
      (processSheet env spreadsheetId channelId guildId sheetName cs).2 = []) := by
  have hlt2 : (lastRowsFindOne cs (spreadsheetId, sheetName, guildId)).getD 0 <
      r.values.length := by simpa [cursorsGet] using hlt
  constructor
  · simp only [processSheet, hf, gt_iff_lt, hlt2, if_true]
    rw [cursorsGet_updateOne_same]
  · intro hch
    simp [processSheet, hf, hlt2, sendResponses, hch]

/-- Claim C1, witness for the amended theorem at the concrete scenario. -/
theorem c1_witness :
    cursorsGet (processSheet env1 "S1" "CH1" "G1" "Sheet1" []).1
        ("S1", "Sheet1", "G1") = 1 ∧
    (env1.channelsCache "CH1" = false →
      (processSheet env1 "S1" "CH1" "G1" "Sheet1" []).2 = []) :=
  c1_cursor_advances_despite_failure env1 "S1" "CH1" "G1" "Sheet1" []
    ⟨["H1"], [["a"]]⟩ rfl (by decide)

/-- Environment in which every metadata read fails with a transient
(retryable) error, on every attempt. -/
def env2 : Env :=
  ⟨fun _ _ => .error (.transient "timeout"), fun _ _ => .error (.transient "timeout"),
    fun _ => true, fun _ _ => true⟩

/-- State with the single subscription cfg1 present in the in-memory map
and the backing store, and a stored cursor at 2. -/
def st2 : TickState := ⟨[("G1:S1", cfg1)], [cfg1], [(("S1", "Sheet1", "G1"), 2)]⟩

/-- Claim C2, counterexample: the fetch fails with a transient error on
all three attempts, yet after the tick the subscription has been evicted
from both the in-memory map and the backing store instead of being
retained (its cursor is indeed unchanged). -/
theorem c2_counterexample :
    env2.spreadsheetsGet 1 "S1" = .error (.transient "timeout") ∧
    env2.spreadsheetsGet 2 "S1" = .error (.transient "timeout") ∧
    env2.spreadsheetsGet 3 "S1" = .error (.transient "timeout") ∧
    st2.formChannels = [("G1:S1", cfg1)] ∧
    (pollSheets env2 st2).1.formChannels = [] ∧
    (pollSheets env2 st2).1.formChannelsDocs = [] ∧
    (pollSheets env2 st2).1.lastRows = st2.lastRows := by
  refine ⟨rfl, rfl, rfl, rfl, ?_, ?_, ?_⟩ <;> decide

/-- Claim C2, amended: when a subscription's task fails — with any error
whatsoever, transient or permanent alike, since the code never
classifies errors — the subscription is evicted from the in-memory map
and its document deleted from the backing store, while its cursor rows
are left unchanged. -/
theorem c2_any_error_evicts (env : Env) (key : String) (c : Config)
    (docs : List Config) (cs : Cursors) (e : SourceErr)
    (herr : (subOutcome env c cs).result = .error e) :
    pollSheets env ⟨[(key, c)], docs, cs⟩ =
      (⟨[], deleteOneDoc docs c.guild_id c.spreadsheet_id, cs⟩, [⟨key, false, []⟩]) := by
  simp [pollSheets, pollSheetsGo, runSubscription, herr, mapDelete]

/-- Claim C2, witness for the amended theorem: the transient-error
environment evicts the subscription. -/
theorem c2_witness :
    pollSheets env2 ⟨[("G1:S1", cfg1)], [cfg1], [(("S1", "Sheet1", "G1"), 2)]⟩ =
      (⟨[], deleteOneDoc [cfg1] cfg1.guild_id cfg1.spreadsheet_id,
          [(("S1", "Sheet1", "G1"), 2)]⟩,
        [⟨"G1:S1", false, []⟩]) :=
  c2_any_error_evicts env2 "G1:S1" cfg1 [cfg1] [(("S1", "Sheet1", "G1"), 2)]
    (.transient "timeout") (by decide)

/-- State with the subscription cfg1 and a persisted cursor row at 5 for
its sheet, used to show removal does not cascade to cursors. -/
def st3 : TickState := ⟨[("G1:S1", cfg1)], [cfg1], [(("S1", "Sheet1", "G1"), 5)]⟩

/-- Claim C3, counterexample: removing the subscription deletes it from
the map and the store, but the persisted cursor row for its sub-source
survives with its value 5 — the cursor outlives its owning
subscription. -/
theorem c3_counterexample :
    (removeform st3 "G1" "MySheet").1.formChannels = [] ∧
    (removeform st3 "G1" "MySheet").1.formChannelsDocs = [] ∧
    (removeform st3 "G1" "MySheet").1.lastRows = [(("S1", "Sheet1", "G1"), 5)] ∧
    cursorsGet (removeform st3 "G1" "MySheet").1.lastRows ("S1", "Sheet1", "G1") = 5 := by
  refine ⟨?_, ?_, ?_, ?_⟩ <;> decide

/-- Claim C3, amended: neither removal path touches the cursor store:
the `/removeform` handler returns `last_rows` unchanged, and a polling
tick (whose catch handler performs scheduler eviction) never deletes a
cursor row either. -/
theorem c3_removal_leaves_cursors (st : TickState) (guildId spreadsheetName : String)
    (env : Env) (st2x : TickState) (k : CursorKey)
    (hk : k ∈ st2x.lastRows.map Prod.fst) :
    (removeform st guildId spreadsheetName).1.lastRows = st.lastRows ∧
    k ∈ (pollSheets env st2x).1.lastRows.map Prod.fst := by
  constructor
  · unfold removeform
    cases hfind : st.formChannels.find?
        (fun kv => kv.2.sheet_name == spreadsheetName && kv.2.guild_id == guildId) with
    | none => rfl
    | some kv => rfl
  · exact pollSheetsGo_mem_keys env st2x.formChannels st2x k hk

/-- Claim C3, witness for the amended theorem at the concrete state. -/
theorem c3_witness :
    (removeform st3 "G1" "MySheet").1.lastRows = st3.lastRows ∧
    ("S1", "Sheet1", "G1") ∈ (pollSheets env1 st3).1.lastRows.map Prod.fst :=
  c3_removal_leaves_cursors st3 "G1" "MySheet" env1 st3 ("S1", "Sheet1", "G1") (by decide)

theorem mapLookup_mapSet_same (m : List (String × Config)) (k : String) (c : Config) :
    mapLookup (mapSet m k c) k = some c := by
  induction m with
  | nil => simp [mapSet, mapLookup]
  | cons e rest ih =>
    by_cases he : e.1 = k
    · simp [mapSet, he, mapLookup]
    · simp [mapSet, he, mapLookup, ih]

/-- Empty state used by the add-subscription counterexample. -/
def st0 : TickState := ⟨[], [], []⟩

/-- Claim C4, counterexample: with a failing store write, the add flow
leaves the new entry in the in-memory map while the backing store stays
empty — the in-memory mutation is not rolled back, so map and store
disagree. -/
theorem c4_counterexample :
    (addSubscription st0 "G1" "S1" "MySheet" "CH1" false).1.formChannels =
      [("G1:S1", Config.mk "CH1" "MySheet" "G1" "S1")] ∧
    (addSubscription st0 "G1" "S1" "MySheet" "CH1" false).1.formChannelsDocs = [] ∧
    (addSubscription st0 "G1" "S1" "MySheet" "CH1" false).2 = false := by
  refine ⟨?_, ?_, ?_⟩ <;> decide

/-- Claim C4, amended: the add flow always installs the entry in the
in-memory map first; the backing store gains the document only when the
insert succeeds, and on insert failure the map entry is kept (no
rollback), so the map can diverge from the store. -/
theorem c4_add_no_rollback (st : TickState)
    (guildId spreadsheetId sheetName channelId : String) (insertOk : Bool) :
    mapLookup
        (addSubscription st guildId spreadsheetId sheetName channelId insertOk).1.formChannels
        (guildId ++ ":" ++ spreadsheetId) =
      some ⟨channelId, sheetName, guildId, spreadsheetId⟩ ∧
    (addSubscription st guildId spreadsheetId sheetName channelId insertOk).1.formChannelsDocs =
      (if insertOk then
        st.formChannelsDocs ++ [⟨channelId, sheetName, guildId, spreadsheetId⟩]
      else st.formChannelsDocs) ∧
    (addSubscription st guildId spreadsheetId sheetName channelId insertOk).2 = insertOk := by
  cases insertOk <;> simp [addSubscription, mapLookup_mapSet_same]

/-- Claim C5: across a whole polling tick the stored cursor of any key
never decreases; and whenever the per-sheet step changes the cursor
state at all, the new value for the sheet's key is exactly the fetched
row count, which is strictly greater than the stored value. -/
theorem c5_cursor_monotone (env : Env) (st : TickState) (k : CursorKey)
    (spreadsheetId channelId guildId sheetName : String) (cs : Cursors) (r : FetchResult)
    (hf : fetchResponses env spreadsheetId sheetName = some r)
    (hne : (processSheet env spreadsheetId channelId guildId sheetName cs).1 ≠ cs) :
    cursorsGet st.lastRows k ≤ cursorsGet (pollSheets env st).1.lastRows k ∧
    cursorsGet (processSheet env spreadsheetId channelId guildId sheetName cs).1
        (spreadsheetId, sheetName, guildId) = r.values.length ∧
    cursorsGet cs (spreadsheetId, sheetName, guildId) < r.values.length := by
  have hguard : (lastRowsFindOne cs (spreadsheetId, sheetName, guildId)).getD 0 <
      r.values.length := by
    by_contra hng
    apply hne
    have heq : processSheet env spreadsheetId channelId guildId sheetName cs = (cs, []) := by
      simp [processSheet, hf, hng]
    rw [heq]
  refine ⟨pollSheetsGo_lastRows_mono env st.formChannels st k, ?_,
    by simpa [cursorsGet] using hguard⟩
  simp only [processSheet, hf, gt_iff_lt, hguard, if_true]
  rw [cursorsGet_updateOne_same]

/-- Claim C5, witness at a concrete state and sheet. -/
theorem c5_witness :
    cursorsGet st2.lastRows ("S1", "Sheet1", "G1") ≤
      cursorsGet (pollSheets env1 st2).1.lastRows ("S1", "Sheet1", "G1") ∧
    cursorsGet (processSheet env1 "S1" "CH1" "G1" "Sheet1" []).1 ("S1", "Sheet1", "G1") =
      (FetchResult.mk ["H1"] [["a"]]).values.length ∧
    cursorsGet [] ("S1", "Sheet1", "G1") < (FetchResult.mk ["H1"] [["a"]]).values.length :=
  c5_cursor_monotone env1 st2 ("S1", "Sheet1", "G1") "S1" "CH1" "G1" "Sheet1" []
    ⟨["H1"], [["a"]]⟩ rfl (by decide)

/-- Claim C6: after one tick, running the tick again against the
unchanged environment writes nothing to the cursor store and delivers
nothing; and the per-sheet step with fetched row count at most the
stored cursor is a strict no-op, returning the cursor state unchanged
with an empty delivery list. -/
theorem c6_noop_second_tick (env : Env) (st : TickState)
    (spreadsheetId channelId guildId sheetName : String) (cs : Cursors) (r : FetchResult)
    (hf : fetchResponses env spreadsheetId sheetName = some r)
    (hle : r.values.length ≤ cursorsGet cs (spreadsheetId, sheetName, guildId)) :
    (pollSheets env (pollSheets env st).1).1.lastRows = (pollSheets env st).1.lastRows ∧
    List.all (pollSheets env (pollSheets env st).1).2
      (fun res => res.delivered.isEmpty) = true ∧
    processSheet env spreadsheetId channelId guildId sheetName cs = (cs, []) := by
  have hstable : Stable env spreadsheetId guildId sheetName cs := by
    intro r2 hf2
    rw [hf] at hf2
    injection hf2 with h2
    subst h2
    exact hle
  have hnoop := pollSheetsGo_noop env (pollSheets env st).1.formChannels (pollSheets env st).1
    (fun kv hmem => pollSheetsGo_post_replay env st.formChannels st kv
      ((pollSheetsGo_formChannels_sublist env st.formChannels st).subset hmem))
  refine ⟨hnoop.1, ?_,
    processSheet_stable_eq env spreadsheetId channelId guildId sheetName cs hstable⟩
  rw [List.all_eq_true]
  intro res hres
  rw [show res.delivered = [] from hnoop.2 res hres]
  rfl

/-- Environment for the no-op-tick witness: one sheet with two rows and
a reachable sink channel. -/
def env6 : Env :=
  ⟨fun _ _ => .ok ["Sheet1"], fun _ _ => .ok ⟨["H1"], [["a"], ["b"]]⟩,
    fun _ => true, fun _ _ => true⟩

/-- State for the no-op-tick witness: the single subscription cfg1 with
no cursor rows yet. -/
def st6 : TickState := ⟨[("G1:S1", cfg1)], [cfg1], []⟩

/-- Claim C6, witness: the second tick after a delivering first tick is
a no-op, and a per-sheet step at cursor 2 with 2 fetched rows skips. -/
theorem c6_witness :
    (pollSheets env6 (pollSheets env6 st6).1).1.lastRows = (pollSheets env6 st6).1.lastRows ∧
    List.all (pollSheets env6 (pollSheets env6 st6).1).2
      (fun res => res.delivered.isEmpty) = true ∧
    processSheet env6 "S1" "CH1" "G1" "Sheet1" [(("S1", "Sheet1", "G1"), 2)] =
      ([(("S1", "Sheet1", "G1"), 2)], []) :=
  c6_noop_second_tick env6 st6 "S1" "CH1" "G1" "Sheet1" [(("S1", "Sheet1", "G1"), 2)]
    ⟨["H1"], [["a"], ["b"]]⟩ rfl (by decide)

/-- Claim C7: when the fetched row count exceeds the stored cursor N and
the sink channel resolves and every send succeeds, exactly the trailing
rows past index N are delivered, in source order, and the cursor is
upserted to the fetched row count; a key with no stored cursor document
reads as 0. -/
theorem c7_trailing_rows (env : Env) (spreadsheetId channelId guildId sheetName : String)
    (cs : Cursors) (r : FetchResult) (N : Nat)
    (hf : fetchResponses env spreadsheetId sheetName = some r)
    (hN : cursorsGet cs (spreadsheetId, sheetName, guildId) = N)
    (hlt : N < r.values.length)
    (hch : env.channelsCache channelId = true)
    (hsend : ∀ row ∈ r.values.drop N, env.channelSend channelId row = true) :
    processSheet env spreadsheetId channelId guildId sheetName cs =
      (lastRowsUpdateOne cs (spreadsheetId, sheetName, guildId) r.values.length,
        r.values.drop N) ∧
    (lastRowsFindOne cs (spreadsheetId, sheetName, guildId) = none →
      cursorsGet cs (spreadsheetId, sheetName, guildId) = 0) := by
  have hN2 : (lastRowsFindOne cs (spreadsheetId, sheetName, guildId)).getD 0 = N := hN
  constructor
  · have hguard : (lastRowsFindOne cs (spreadsheetId, sheetName, guildId)).getD 0 <
        r.values.length := by rw [hN2]; exact hlt
    simp only [processSheet, hf, gt_iff_lt, hguard, hN2, hlt, if_true, Prod.mk.injEq,
      true_and, sendResponses, hch]
    exact List.filter_eq_self.mpr hsend
  · intro hnone
    simp [cursorsGet, hnone]

/-- Environment for the concrete C7 scenario: one sheet with five data
rows, channel reachable, all sends succeeding. -/
def env7 : Env :=
  ⟨fun _ _ => .ok ["Sheet1"],
    fun _ _ => .ok ⟨["Q1"], [["r1"], ["r2"], ["r3"], ["r4"], ["r5"]]⟩,
    fun _ => true, fun _ _ => true⟩

/-- Cursor state for the concrete C7 scenario: Sheet1 already delivered
up to row 3. -/
def cs7 : Cursors := [(("S1", "Sheet1", "G1"), 3)]

/-- Claim C7, witness: with cursor 3 and 5 remote rows, rows 4 and 5 are
delivered in order and the cursor advances to 5. -/
theorem c7_witness :
    processSheet env7 "S1" "CH1" "G1" "Sheet1" cs7 =
      (lastRowsUpdateOne cs7 ("S1", "Sheet1", "G1")
          (FetchResult.mk ["Q1"] [["r1"], ["r2"], ["r3"], ["r4"], ["r5"]]).values.length,
        (FetchResult.mk ["Q1"] [["r1"], ["r2"], ["r3"], ["r4"], ["r5"]]).values.drop 3) ∧
    (lastRowsFindOne cs7 ("S1", "Sheet1", "G1") = none →
      cursorsGet cs7 ("S1", "Sheet1", "G1") = 0) :=
  c7_trailing_rows env7 "S1" "CH1" "G1" "Sheet1" cs7
    ⟨["Q1"], [["r1"], ["r2"], ["r3"], ["r4"], ["r5"]]⟩ 3 rfl (by decide) (by decide) rfl
    (by decide)

/-- Environment in which every metadata read fails with a permanent
(not-found) error. -/
def env8 : Env :=
  ⟨fun _ _ => .error (.permanent "notFound"), fun _ _ => .ok ⟨[], []⟩,
    fun _ => true, fun _ _ => true⟩

/-- Environment in which the metadata read succeeds but every per-sheet
value read fails with a transient error. -/
def env9 : Env :=
  ⟨fun _ _ => .ok ["Sheet1"], fun _ _ => .error (.transient "timeout"),
    fun _ => true, fun _ _ => true⟩

/-- Claim C8, counterexample: a classified-permanent metadata failure is
retried the full 3 attempts with two 5000 ms sleeps instead of
short-circuiting; and a transient per-sheet fetch failure is not retried
and not re-raised — the call succeeds after a single attempt. -/
theorem c8_counterexample :
    env8.spreadsheetsGet 1 "S1" = .error (.permanent "notFound") ∧
    (processSpreadsheet env8 "S1" "CH1" "G1" [] 3).attemptsMade = 3 ∧
    (processSpreadsheet env8 "S1" "CH1" "G1" [] 3).sleepsMs = [5000, 5000] ∧
    env9.valuesGet "S1" "Sheet1" = .error (.transient "timeout") ∧
    (processSpreadsheet env9 "S1" "CH1" "G1" [] 3).result = .ok ([], []) ∧
    (processSpreadsheet env9 "S1" "CH1" "G1" [] 3).attemptsMade = 1 := by
  refine ⟨rfl, ?_, ?_, rfl, ?_, ?_⟩ <;> decide

/-- Claim C8, amended: only errors of the metadata (sheet-listing) step
drive the retry loop: they are retried up to 3 attempts with a fixed
5000 ms backoff and the error of the final attempt is re-raised, with no
classification whatsoever — a permanent error is retried exactly like a
transient one; the per-sheet fetch is never retried, because a metadata
success on attempt 1 completes the call in one attempt regardless of
fetch outcomes. -/
theorem c8_retry_unclassified (env envF : Env)
    (spreadsheetId channelId guildId : String) (cs : Cursors)
    (e1 e2 e3 : SourceErr) (sheetNames : List String)
    (h1 : spreadsheetId ≠ "") (h2 : guildId ≠ "")
    (hm1 : env.spreadsheetsGet 1 spreadsheetId = .error e1)
    (hm2 : env.spreadsheetsGet 2 spreadsheetId = .error e2)
    (hm3 : env.spreadsheetsGet 3 spreadsheetId = .error e3)
    (hmF : envF.spreadsheetsGet 1 spreadsheetId = .ok sheetNames) :
    processSpreadsheet env spreadsheetId channelId guildId cs 3 =
      ⟨.error e3, 3, [5000, 5000]⟩ ∧
    (processSpreadsheet envF spreadsheetId channelId guildId cs 3).attemptsMade = 1 ∧
    resultOk (processSpreadsheet envF spreadsheetId channelId guildId cs 3).result = true := by
  refine ⟨?_, ?_, ?_⟩
  · simp [processSpreadsheet, h1, h2, processSpreadsheetGo, processAttempt, hm1, hm2, hm3]
  · simp [processSpreadsheet, h1, h2, processSpreadsheetGo, processAttempt, hmF]
  · simp [processSpreadsheet, h1, h2, processSpreadsheetGo, processAttempt, hmF, resultOk]

/-- Claim C8, witness for the amended theorem at the two concrete
environments. -/
theorem c8_witness :
    processSpreadsheet env8 "S1" "CH1" "G1" [] 3 =
      ⟨.error (.permanent "notFound"), 3, [5000, 5000]⟩ ∧
    (processSpreadsheet env9 "S1" "CH1" "G1" [] 3).attemptsMade = 1 ∧
    resultOk (processSpreadsheet env9 "S1" "CH1" "G1" [] 3).result = true :=
  c8_retry_unclassified env8 env9 "S1" "CH1" "G1" []
    (.permanent "notFound") (.permanent "notFound") (.permanent "notFound") ["Sheet1"]
    (by decide) (by decide) rfl rfl rfl rfl

/-- Claim C9: a tick settles every subscription of the snapshot, in
order, with each outcome determined by that subscription's own config
and the environment alone (an error in one task neither cancels nor
fails another); and when the subscriptions are pairwise distinct, a
succeeding subscription's cursors advance exactly as they would in
isolation, whatever happens to the others. -/
theorem c9_isolation (env : Env) (st : TickState) (kv : String × Config) (sheetName : String)
    (res : Cursors × List (List String))
    (hpw : st.formChannels.Pairwise
      (fun a b => a.2.spreadsheet_id ≠ b.2.spreadsheet_id ∨ a.2.guild_id ≠ b.2.guild_id))
    (hmem : kv ∈ st.formChannels)
    (hok : (subOutcome env kv.2 st.lastRows).result = .ok res) :
    (pollSheets env st).2.map (fun r => (r.key, r.ok)) =
      st.formChannels.map (fun kv2 => (kv2.1, standaloneOk env kv2.2)) ∧
    cursorsGet (pollSheets env st).1.lastRows
        (kv.2.spreadsheet_id, sheetName, kv.2.guild_id) =
      cursorsGet res.1 (kv.2.spreadsheet_id, sheetName, kv.2.guild_id) := by
  refine ⟨pollSheetsGo_results env st.formChannels st, ?_⟩
  exact pollSheetsGo_cursor_isolated env st.formChannels st kv st.lastRows hmem hpw
    (fun k hk => rfl) res hok (kv.2.spreadsheet_id, sheetName, kv.2.guild_id) ⟨rfl, rfl⟩

/-- Second subscription for the isolation witness: guild G1 also tracks
spreadsheet S2, whose source the environment reports as gone. -/
def cfg2 : Config := ⟨"CH2", "Broken", "G1", "S2"⟩

/-- Environment for the isolation witness: S1 lists fine and has one
row; every metadata read of any other spreadsheet fails permanently. -/
def envW : Env :=
  ⟨fun _ s => if s = "S1" then .ok ["Sheet1"] else .error (.permanent "notFound"),
    fun _ _ => .ok ⟨["H1"], [["a"]]⟩, fun _ => true, fun _ _ => true⟩

/-- Two-subscription state for the isolation witness. -/
def st9 : TickState := ⟨[("G1:S1", cfg1), ("G1:S2", cfg2)], [cfg1, cfg2], []⟩

/-- Claim C9, witness: with one healthy and one permanently-failing
subscription in the same tick, both settle — the healthy one succeeds
and advances its cursor exactly as in isolation. -/
theorem c9_witness :
    (pollSheets envW st9).2.map (fun r => (r.key, r.ok)) =
      st9.formChannels.map (fun kv2 => (kv2.1, standaloneOk envW kv2.2)) ∧
    cursorsGet (pollSheets envW st9).1.lastRows ("S1", "Sheet1", "G1") =
      cursorsGet [(("S1", "Sheet1", "G1"), 1)] ("S1", "Sheet1", "G1") :=
  c9_isolation envW st9 ("G1:S1", cfg1) "Sheet1" ([(("S1", "Sheet1", "G1"), 1)], [["a"]])
    (by decide) (by decide) (by decide)

theorem processSheet_none (env : Env) (spreadsheetId channelId guildId sheetName : String)
    (cs : Cursors) (hf : fetchResponses env spreadsheetId sheetName = none) :
    processSheet env spreadsheetId channelId guildId sheetName cs = (cs, []) := by
  simp [processSheet, hf]

theorem processSheets_failed_sheet_frame (env : Env)
    (spreadsheetId channelId guildId sheetName : String) (sheetNames : List String)
    (cs : Cursors) (hf : fetchResponses env spreadsheetId sheetName = none) :
    cursorsGet (processSheets env spreadsheetId channelId guildId sheetNames cs).1
        (spreadsheetId, sheetName, guildId) =
      cursorsGet cs (spreadsheetId, sheetName, guildId) := by
  induction sheetNames generalizing cs with
  | nil => simp [processSheets]
  | cons x rest ih =>
    simp only [processSheets]
    rw [ih]
    by_cases hx : x = sheetName
    · subst hx
      rw [processSheet_none env spreadsheetId channelId guildId x cs hf]
    · rw [processSheet_frame env spreadsheetId channelId guildId x cs _ ?_]
      intro he
      apply hx
      exact (congrArg (fun p : CursorKey => p.2.1) he).symm

/-- Claim C10: a per-sheet fetch failure is fully swallowed:
`fetchResponses` returns null instead of raising, the sheet is skipped
with its cursor untouched while the loop moves on to the remaining
sheets, and the subscription-level retry loop never notices — given a
successful metadata read the call succeeds in a single attempt. -/
theorem c10_fetch_failure_swallowed (env : Env)
    (spreadsheetId channelId guildId sheetName : String) (cs : Cursors) (e : SourceErr)
    (rest sheetNames : List String)
    (hverr : env.valuesGet spreadsheetId sheetName = .error e)
    (hm : env.spreadsheetsGet 1 spreadsheetId = .ok sheetNames)
    (h1 : spreadsheetId ≠ "") (h2 : guildId ≠ "") :
    fetchResponses env spreadsheetId sheetName = none ∧
    processSheet env spreadsheetId channelId guildId sheetName cs = (cs, []) ∧
    processSheets env spreadsheetId channelId guildId (sheetName :: rest) cs =
      processSheets env spreadsheetId channelId guildId rest cs ∧
    (processSpreadsheet env spreadsheetId channelId guildId cs 3).attemptsMade = 1 ∧
    resultOk (processSpreadsheet env spreadsheetId channelId guildId cs 3).result = true ∧
    cursorsGet (processSheets env spreadsheetId channelId guildId sheetNames cs).1
        (spreadsheetId, sheetName, guildId) =
      cursorsGet cs (spreadsheetId, sheetName, guildId) := by
  have hfn : fetchResponses env spreadsheetId sheetName = none := by
    simp [fetchResponses, hverr]
  have hps := processSheet_none env spreadsheetId channelId guildId sheetName cs hfn
  refine ⟨hfn, hps, ?_, ?_, ?_, processSheets_failed_sheet_frame env spreadsheetId channelId
    guildId sheetName sheetNames cs hfn⟩
  · simp [processSheets, hps]
  · simp [processSpreadsheet, h1, h2, processSpreadsheetGo, processAttempt, hm]
  · simp [processSpreadsheet, h1, h2, processSpreadsheetGo, processAttempt, hm, resultOk]

/-- Claim C10, witness at the transient-fetch-failure environment. -/
theorem c10_witness :
    fetchResponses env9 "S1" "Sheet1" = none ∧
    processSheet env9 "S1" "CH1" "G1" "Sheet1" [] = ([], []) ∧
    processSheets env9 "S1" "CH1" "G1" ["Sheet1"] [] =
      processSheets env9 "S1" "CH1" "G1" [] [] ∧
    (processSpreadsheet env9 "S1" "CH1" "G1" [] 3).attemptsMade = 1 ∧
    resultOk (processSpreadsheet env9 "S1" "CH1" "G1" [] 3).result = true ∧
    cursorsGet (processSheets env9 "S1" "CH1" "G1" ["Sheet1"] []).1 ("S1", "Sheet1", "G1") =
      cursorsGet [] ("S1", "Sheet1", "G1") :=
  c10_fetch_failure_swallowed env9 "S1" "CH1" "G1" "Sheet1" [] (.transient "timeout")
    [] ["Sheet1"] rfl rfl (by decide) (by decide)

end PrsBot
